import Mathlib

/-
Verification of the social-profile aggregation backend (Express + MongoDB):
a shallow embedding of the route handlers of src/index.js and of the
standalone bootstrap script src/initAdmin.js, with theorems settling the
specification claims about registration, login, upload upsert semantics,
social-handle deletion, user deletion with file cascade, the auth gates,
and the two Admin-bootstrap paths.
-/

namespace SocialBackend

/-- Stored password values. The bcrypt primitive is treated as a black box
(per the spec, a one-way salted hash): a hash is an opaque tagged value
carrying the cost factor and the plaintext it was derived from, and is
never equal to a raw (unhashed) stored string. -/
inductive StoredPassword where
  | plaintext (s : String)
  | bcryptHashed (cost : Nat) (s : String)
deriving DecidableEq, Repr

/-- Model of bcrypt.hash(plain, cost). -/
def bcrypt_hash (cost : Nat) (plain : String) : StoredPassword :=
  StoredPassword.bcryptHashed cost plain

/-- Model of bcrypt.compare(plain, stored): succeeds exactly when the stored
value is a bcrypt hash of the supplied plaintext. Comparing against a
stored value that is not a bcrypt hash (a raw plaintext string) fails, as
bcryptjs rejects strings that are not in hash format. -/
def bcrypt_compare (plain : String) : StoredPassword → Bool
  | StoredPassword.plaintext _ => false
  | StoredPassword.bcryptHashed _ s => plain == s

/-- An entry of a user's socialHandles sequence. Timestamps are Nat. -/
structure SocialHandle where
  platform : String
  handle : String
  addedAt : Nat
deriving DecidableEq, Repr

/-- An entry of a user's images sequence. -/
structure Image where
  url : String
  uploadedAt : Nat
deriving DecidableEq, Repr

/-- A User document. -/
structure User where
  id : Nat
  email : String
  password : StoredPassword
  name : String
  socialHandles : List SocialHandle
  images : List Image
  createdAt : Nat
deriving DecidableEq, Repr

/-- An Admin document. -/
structure Admin where
  id : Nat
  username : String
  password : StoredPassword
deriving DecidableEq, Repr

/-- Persistent state: the two MongoDB collections plus the uploads
directory on the filesystem, modelled as the list of existing file paths. -/
structure DB where
  users : List User
  admins : List Admin
  files : List String
deriving DecidableEq, Repr

/-- JSON response bodies produced by the handlers. -/
inductive RespBody where
  | msg (m : String)
  | err (m : String)
  | token (id : Nat)
  | user (u : User)
  | users (us : List User)
deriving DecidableEq, Repr

/-- An HTTP response: status code and JSON body. -/
structure Response where
  status : Nat
  body : RespBody
deriving DecidableEq, Repr

/-- The fixed well-known admin username used by both bootstrap paths. -/
def defaultAdminUsername : String := "admin@gmail.com"

/-- The bootstrap path of the standalone script src/initAdmin.js: if no
Admin with the well-known username exists, it creates one storing the
literal plaintext string "admin" as the password. -/
def initializeAdmin_script (admins : List Admin) (newId : Nat) : List Admin :=
  match admins.find? (fun a => a.username == defaultAdminUsername) with
  | some _ => admins
  | none => admins ++ [⟨newId, defaultAdminUsername, StoredPassword.plaintext "admin"⟩]

/-- The bootstrap path of src/index.js (initializeAdmin, run at server
startup): if no Admin with the well-known username exists, it creates one
storing bcrypt.hash("admin", 10). -/
def initializeAdmin_server (admins : List Admin) (newId : Nat) : List Admin :=
  match admins.find? (fun a => a.username == defaultAdminUsername) with
  | some _ => admins
  | none => admins ++ [⟨newId, defaultAdminUsername, bcrypt_hash 10 "admin"⟩]

/-- C1: The two Admin-bootstrap paths are inequivalent: on the same empty
Admin collection, the standalone script persists the literal plaintext
"admin" while the server-startup path persists a bcrypt hash of it, so the
two resulting Admin records have different stored password values. -/
theorem admin_bootstrap_paths_inequivalent (newId : Nat) :
    initializeAdmin_script [] newId ≠ initializeAdmin_server [] newId ∧
    ∃ a b : Admin,
      initializeAdmin_script [] newId = [a] ∧
      initializeAdmin_server [] newId = [b] ∧
      a.password = StoredPassword.plaintext "admin" ∧
      b.password = bcrypt_hash 10 "admin" ∧
      a.password ≠ b.password := by
  refine ⟨?_, ⟨newId, defaultAdminUsername, StoredPassword.plaintext "admin"⟩,
    ⟨newId, defaultAdminUsername, bcrypt_hash 10 "admin"⟩, ?_, ?_, rfl, rfl, ?_⟩ <;>
    simp [initializeAdmin_script, initializeAdmin_server, bcrypt_hash]

/-- Modelled from the spec: models/User.js is not among the sources; per the
spec, hashing is applied automatically on write by the User model (the
component responsible per section 9), so persisting a new user stores a
bcrypt hash of the plaintext password (bcryptjs default cost 10). -/
def persistPassword (plain : String) : StoredPassword :=
  bcrypt_hash 10 plain

/-- POST /api/users/register: rejects an already-registered email with 400,
otherwise persists a new user (password hashed on write by the model) with
empty socialHandles and images, returning 201 with a message only. -/
def registerHandler (db : DB) (email password name : String)
    (newId now : Nat) : DB × Response :=
  match db.users.find? (fun u => u.email == email) with
  | some _ => (db, ⟨400, RespBody.err "Email already registered"⟩)
  | none =>
    let u : User := ⟨newId, email, persistPassword password, name, [], [], now⟩
    ({ db with users := db.users ++ [u] },
     ⟨201, RespBody.msg "Registration successful"⟩)

/-- The common failure response of both login handlers. -/
def invalidCredentials : Response := ⟨401, RespBody.err "Invalid credentials"⟩

/-- POST /api/users/login: looks up the user by email, compares the
password with bcrypt, and returns a signed token carrying the user id. -/
def userLogin (db : DB) (email password : String) : Response :=
  match db.users.find? (fun u => u.email == email) with
  | none => invalidCredentials
  | some u =>
    if bcrypt_compare password u.password then ⟨200, RespBody.token u.id⟩
    else invalidCredentials

/-- POST /api/admin/login: looks up the admin by username, compares the
password with bcrypt, and returns a signed token carrying the admin id. -/
def adminLogin (db : DB) (username password : String) : Response :=
  match db.admins.find? (fun a => a.username == username) with
  | none => invalidCredentials
  | some a =>
    if bcrypt_compare password a.password then ⟨200, RespBody.token a.id⟩
    else invalidCredentials

/-- A verified token's claims: jwt.sign embeds only the principal id. -/
structure Token where
  id : Nat
deriving DecidableEq, Repr

/-- Outcome of an auth middleware: either the looked-up principal, or the
401 rejection response. -/
inductive AuthOutcome (α : Type) where
  | ok (principal : α)
  | reject (resp : Response)
deriving DecidableEq, Repr

/-- The 401 body both middlewares send. -/
def authRejection : Response := ⟨401, RespBody.err "Please authenticate."⟩

/-- The auth middleware (admin gate) of src/index.js: decodes the token and
looks the embedded id up in the Admin collection; rejects with 401 if no
Admin matches. -/
def adminAuthGate (db : DB) (t : Token) : AuthOutcome Admin :=
  match db.admins.find? (fun a => a.id == t.id) with
  | some a => AuthOutcome.ok a
  | none => AuthOutcome.reject authRejection

/-- The userAuth middleware of src/index.js: decodes the token and looks the
embedded id up in the User collection; rejects with 401 if no User
matches. -/
def userAuthGate (db : DB) (t : Token) : AuthOutcome User :=
  match db.users.find? (fun u => u.id == t.id) with
  | some u => AuthOutcome.ok u
  | none => AuthOutcome.reject authRejection

/-- In-place upsert into socialHandles, following the findIndex logic of
the upload handler: the first entry whose platform matches has its handle
and addedAt overwritten in place; if none matches, a new entry is
appended. -/
def upsertHandle (platform handle : String) (now : Nat) :
    List SocialHandle → List SocialHandle
  | [] => [⟨platform, handle, now⟩]
  | e :: rest =>
    if e.platform == platform then ⟨e.platform, handle, now⟩ :: rest
    else e :: upsertHandle platform handle now rest

/-- A decoded multipart upload request: the filenames multer assigned to
the accepted files (at most 5, enforced by multer itself), and the
optional platform and handle body fields (absent fields are none). -/
structure UploadRequest where
  files : List String
  platform : Option String
  handle : Option String
deriving DecidableEq, Repr

/-- POST /api/users/upload: maps each stored file to an images entry with
url "/uploads/" ++ filename, upserts the social handle when both platform
and handle are truthy (JS truthiness: present and non-empty), appends the
new images, and returns 201 with the saved user document. -/
def uploadHandler (user : User) (req : UploadRequest) (now : Nat) :
    User × Response :=
  let images := req.files.map (fun f => Image.mk ("/uploads/" ++ f) now)
  let user1 :=
    match req.platform, req.handle with
    | some p, some h =>
      if p != "" && h != "" then
        { user with socialHandles := upsertHandle p h now user.socialHandles }
      else user
    | _, _ => user
  let user2 := { user1 with images := user1.images ++ images }
  (user2, ⟨201, RespBody.user user2⟩)

/-- Users are returned newest first: User.find().sort with createdAt
descending. -/
def newestFirst (a b : User) : Prop := b.createdAt ≤ a.createdAt

instance : DecidableRel newestFirst := fun a b => Nat.decLe b.createdAt a.createdAt

/-- GET /api/users: returns all User documents ordered by createdAt
descending. -/
def listUsersHandler (db : DB) : Response :=
  ⟨200, RespBody.users (db.users.insertionSort newestFirst)⟩

/-- Resolution of an image url to the on-disk path, as in
path.join(dirname, \x27..\x27, image.url). -/
def resolvePath (url : String) : String := "/app" ++ url

/-- The file-deletion loop of the delete-user handler: for each image, the
referenced file is unlinked if it exists (a missing file is skipped). -/
def deleteFiles (files : List String) : List Image → List String
  | [] => files
  | img :: rest => deleteFiles (files.filter (fun f => f != resolvePath img.url)) rest

/-- DELETE /api/users/:id: 404 if the user does not exist; otherwise
deletes every file referenced by the user's images, then deletes the User
document, returning 200. -/
def deleteUserHandler (db : DB) (id : Nat) : DB × Response :=
  match db.users.find? (fun u => u.id == id) with
  | none => (db, ⟨404, RespBody.err "User not found"⟩)
  | some u =>
    ({ users := db.users.filter (fun v => v.id != id),
       admins := db.admins,
       files := deleteFiles db.files u.images },
     ⟨200, RespBody.msg "User deleted successfully"⟩)

/-- The mutation DELETE /api/users/:id/social-handles applies to the loaded
user: filters out every socialHandles entry whose platform matches. -/
def removeSocialHandle (u : User) (platform : String) : User :=
  { u with socialHandles := u.socialHandles.filter (fun h => h.platform != platform) }

/-- The mutation DELETE /api/users/:id/images applies to the loaded user:
filters out every images entry whose url matches the given path. -/
def removeImage (u : User) (imagePath : String) : User :=
  { u with images := u.images.filter (fun img => img.url != imagePath) }

/-- Persisting a modified user document: save writes it back over the
document with the same id. -/
def updateUserById (users : List User) (id : Nat) (u : User) : List User :=
  users.map (fun v => if v.id == id then u else v)

/-- DELETE /api/users/:id/social-handles: 404 if the user does not exist;
otherwise removes the matching platform entries and saves the user,
returning 200 even when no entry matched. -/
def deleteSocialHandleHandler (db : DB) (id : Nat) (platform : String) :
    DB × Response :=
  match db.users.find? (fun u => u.id == id) with
  | none => (db, ⟨404, RespBody.err "User not found"⟩)
  | some u =>
    ({ db with users := updateUserById db.users id (removeSocialHandle u platform) },
     ⟨200, RespBody.msg "Social handle deleted successfully"⟩)

/-- The invariant on socialHandles: no two entries share a platform. -/
def NoDupPlatforms (hs : List SocialHandle) : Prop :=
  (hs.map (fun e => e.platform)).Nodup

/-- The states a User document can reach in the running system: created by
registration with empty socialHandles and images, then mutated only by the
upload handler, social-handle deletion and image deletion (the only
operations of src/index.js that write a User document). -/
inductive Reachable : User → Prop where
  | registered (id : Nat) (email password name : String) (now : Nat) :
      Reachable ⟨id, email, persistPassword password, name, [], [], now⟩
  | upload (u : User) (req : UploadRequest) (now : Nat) :
      Reachable u → Reachable (uploadHandler u req now).1
  | deleteHandle (u : User) (platform : String) :
      Reachable u → Reachable (removeSocialHandle u platform)
  | deleteImage (u : User) (imagePath : String) :
      Reachable u → Reachable (removeImage u imagePath)

theorem upsert_of_not_mem (p h : String) (now : Nat) (hs : List SocialHandle)
    (hne : ∀ e ∈ hs, e.platform ≠ p) :
    upsertHandle p h now hs = hs ++ [⟨p, h, now⟩] := by
  induction hs with
  | nil => rfl
  | cons e rest ih =>
    have he : (e.platform == p) = false :=
      beq_eq_false_iff_ne.mpr (hne e (List.mem_cons_self e rest))
    simp only [upsertHandle, he, Bool.false_eq_true, if_false, List.cons_append,
      List.cons.injEq, true_and]
    exact ih (fun x hx => hne x (List.mem_cons_of_mem _ hx))

theorem upsert_decomp (p h : String) (now : Nat) (pre : List SocialHandle)
    (e : SocialHandle) (post : List SocialHandle)
    (hpre : ∀ x ∈ pre, x.platform ≠ p) (he : e.platform = p) :
    upsertHandle p h now (pre ++ e :: post) =
      pre ++ ⟨e.platform, h, now⟩ :: post := by
  induction pre with
  | nil => simp [upsertHandle, he]
  | cons x rest ih =>
    have hx : (x.platform == p) = false :=
      beq_eq_false_iff_ne.mpr (hpre x (List.mem_cons_self x rest))
    simp only [List.cons_append, upsertHandle, hx, Bool.false_eq_true, if_false,
      List.cons.injEq, true_and]
    exact ih (fun y hy => hpre y (List.mem_cons_of_mem _ hy))

theorem upsert_countP (p h : String) (now : Nat) (hs : List SocialHandle) :
    (upsertHandle p h now hs).countP (fun e => e.platform == p) =
      if hs.countP (fun e => e.platform == p) = 0 then 1
      else hs.countP (fun e => e.platform == p) := by
  induction hs with
  | nil => simp [upsertHandle]
  | cons e rest ih =>
    by_cases hep : e.platform = p
    · have ht : (e.platform == p) = true := beq_iff_eq.mpr hep
      simp [upsertHandle, ht, List.countP_cons]
    · have hf : (e.platform == p) = false := beq_eq_false_iff_ne.mpr hep
      simp [upsertHandle, hf, List.countP_cons, ih]

theorem upsert_handle_eq (p h : String) (now : Nat) (hs : List SocialHandle)
    (hc : hs.countP (fun e => e.platform == p) ≤ 1) :
    ∀ e ∈ upsertHandle p h now hs, e.platform = p → e.handle = h := by
  induction hs with
  | nil =>
    intro e he _
    simp only [upsertHandle, List.mem_singleton] at he
    rw [he]
  | cons x rest ih =>
    intro e he hep
    by_cases hxp : x.platform = p
    · have ht : (x.platform == p) = true := beq_iff_eq.mpr hxp
      simp only [upsertHandle, ht, if_true, List.mem_cons] at he
      rcases he with he | he
      · rw [he]
      · exfalso
        have h1 : (x :: rest).countP (fun e => e.platform == p) =
            rest.countP (fun e => e.platform == p) + 1 := by
          simp [List.countP_cons, ht]
        have h0 : rest.countP (fun e => e.platform == p) = 0 := by omega
        have := List.countP_eq_zero.mp h0 e he
        simp [hep] at this
    · have hf : (x.platform == p) = false := beq_eq_false_iff_ne.mpr hxp
      simp only [upsertHandle, hf, Bool.false_eq_true, if_false, List.mem_cons] at he
      rcases he with he | he
      · exact absurd (he ▸ hep) hxp
      · have hle : rest.countP (fun e => e.platform == p) ≤ 1 := by
          have : (x :: rest).countP (fun e => e.platform == p) =
              rest.countP (fun e => e.platform == p) := by
            simp [List.countP_cons, hf]
          omega
        exact ih hle e he hep

theorem mem_platform_upsert (p h : String) (now : Nat) (hs : List SocialHandle)
    (x : String) (hx : x ∈ (upsertHandle p h now hs).map (fun e => e.platform)) :
    x ∈ hs.map (fun e => e.platform) ∨ x = p := by
  induction hs with
  | nil =>
    simp only [upsertHandle, List.map_cons, List.map_nil, List.mem_singleton] at hx
    exact Or.inr hx
  | cons e rest ih =>
    by_cases hep : e.platform = p
    · have ht : (e.platform == p) = true := beq_iff_eq.mpr hep
      simp only [upsertHandle, ht, if_true, List.map_cons, List.mem_cons] at hx
      rcases hx with hx | hx
      · exact Or.inl (by rw [List.map_cons, hx]; exact List.mem_cons_self _ _)
      · exact Or.inl (by rw [List.map_cons]; exact List.mem_cons_of_mem _ hx)
    · have hf : (e.platform == p) = false := beq_eq_false_iff_ne.mpr hep
      simp only [upsertHandle, hf, Bool.false_eq_true, if_false, List.map_cons,
        List.mem_cons] at hx
      rcases hx with hx | hx
      · exact Or.inl (by rw [List.map_cons, hx]; exact List.mem_cons_self _ _)
      · rcases ih hx with hm | hm
        · exact Or.inl (by rw [List.map_cons]; exact List.mem_cons_of_mem _ hm)
        · exact Or.inr hm

theorem upsert_noDup (p h : String) (now : Nat) (hs : List SocialHandle)
    (hnd : NoDupPlatforms hs) : NoDupPlatforms (upsertHandle p h now hs) := by
  induction hs with
  | nil => simp [upsertHandle, NoDupPlatforms]
  | cons e rest ih =>
    rw [NoDupPlatforms, List.map_cons, List.nodup_cons] at hnd
    by_cases hep : e.platform = p
    · have ht : (e.platform == p) = true := beq_iff_eq.mpr hep
      rw [NoDupPlatforms]
      simp only [upsertHandle, ht, if_true, List.map_cons]
      exact List.nodup_cons.mpr hnd
    · have hf : (e.platform == p) = false := beq_eq_false_iff_ne.mpr hep
      rw [NoDupPlatforms]
      simp only [upsertHandle, hf, Bool.false_eq_true, if_false, List.map_cons]
      refine List.nodup_cons.mpr ⟨?_, ih hnd.2⟩
      intro hmem
      rcases mem_platform_upsert p h now rest e.platform hmem with hm | hm
      · exact hnd.1 hm
      · exact hep hm

theorem filter_noDup (q : SocialHandle → Bool) (hs : List SocialHandle)
    (hnd : NoDupPlatforms hs) : NoDupPlatforms (hs.filter q) := by
  have hsub : ((hs.filter q).map (fun e => e.platform)).Sublist
      (hs.map (fun e => e.platform)) :=
    (List.filter_sublist hs).map _
  exact List.Nodup.sublist hsub hnd

theorem upload_socialHandles (user : User) (req : UploadRequest) (now : Nat) :
    (uploadHandler user req now).1.socialHandles = user.socialHandles ∨
      ∃ p h, req.platform = some p ∧ req.handle = some h ∧
        (uploadHandler user req now).1.socialHandles =
          upsertHandle p h now user.socialHandles := by
  rcases req with ⟨files, pOpt, hOpt⟩
  cases pOpt with
  | none => simp [uploadHandler]
  | some p =>
    cases hOpt with
    | none => simp [uploadHandler]
    | some h =>
      by_cases hc : (p != "" && h != "") = true
      · exact Or.inr ⟨p, h, rfl, rfl, by simp [uploadHandler, hc]⟩
      · exact Or.inl (by simp [uploadHandler, hc])

theorem upload_socialHandles_truthy (user : User) (files : List String)
    (p h : String) (now : Nat) (hp : p ≠ "") (hh : h ≠ "") :
    (uploadHandler user ⟨files, some p, some h⟩ now).1.socialHandles =
      upsertHandle p h now user.socialHandles := by
  have hc : (p != "" && h != "") = true := by simp [bne_iff_ne, hp, hh]
  simp [uploadHandler, hc]

/-- C2: Upload with both platform and handle supplied has upsert semantics
on socialHandles: if an entry with that platform exists, the first such
entry's handle is overwritten and its addedAt refreshed in place with the
rest of the list unchanged; otherwise a new entry is appended. In
particular, uploading twitter/"a" then twitter/"b" yields exactly one
twitter entry, with handle "b". -/
theorem upload_upsert_semantics (user : User) (files : List String)
    (p h : String) (now : Nat) (hp : p ≠ "") (hh : h ≠ "") :
    ((∀ e ∈ user.socialHandles, e.platform ≠ p) →
      (uploadHandler user ⟨files, some p, some h⟩ now).1.socialHandles =
        user.socialHandles ++ [⟨p, h, now⟩]) ∧
    (∀ pre e post, user.socialHandles = pre ++ e :: post →
      (∀ x ∈ pre, x.platform ≠ p) → e.platform = p →
      (uploadHandler user ⟨files, some p, some h⟩ now).1.socialHandles =
        pre ++ ⟨e.platform, h, now⟩ :: post) ∧
    (∀ (u0 : User) (f1 f2 : List String) (n1 n2 : Nat),
      u0.socialHandles.countP (fun e => e.platform == "twitter") ≤ 1 →
      ((uploadHandler (uploadHandler u0 ⟨f1, some "twitter", some "a"⟩ n1).1
          ⟨f2, some "twitter", some "b"⟩ n2).1.socialHandles.countP
          (fun e => e.platform == "twitter") = 1 ∧
       ∀ e ∈ (uploadHandler (uploadHandler u0 ⟨f1, some "twitter", some "a"⟩ n1).1
          ⟨f2, some "twitter", some "b"⟩ n2).1.socialHandles,
         e.platform = "twitter" → e.handle = "b")) := by
  refine ⟨?_, ?_, ?_⟩
  · intro hne
    rw [upload_socialHandles_truthy user files p h now hp hh]
    exact upsert_of_not_mem p h now user.socialHandles hne
  · intro pre e post hdecomp hpre hep
    rw [upload_socialHandles_truthy user files p h now hp hh, hdecomp]
    exact upsert_decomp p h now pre e post hpre hep
  · intro u0 f1 f2 n1 n2 hc
    have h1 : (uploadHandler u0 ⟨f1, some "twitter", some "a"⟩ n1).1.socialHandles =
        upsertHandle "twitter" "a" n1 u0.socialHandles :=
      upload_socialHandles_truthy u0 f1 "twitter" "a" n1 (by decide) (by decide)
    have h2 := upload_socialHandles_truthy
      (uploadHandler u0 ⟨f1, some "twitter", some "a"⟩ n1).1 f2
      "twitter" "b" n2 (by decide) (by decide)
    rw [h1] at h2
    have hcnt1 : (upsertHandle "twitter" "a" n1 u0.socialHandles).countP
        (fun e => e.platform == "twitter") = 1 := by
      rw [upsert_countP]
      by_cases h0 : u0.socialHandles.countP (fun e => e.platform == "twitter") = 0
      · simp [h0]
      · simp only [h0, if_false]
        omega
    refine ⟨?_, ?_⟩
    · rw [h2, upsert_countP, hcnt1]
      simp
    · rw [h2]
      exact upsert_handle_eq "twitter" "b" n2 _ (by rw [hcnt1])

/-- Witness for C2 at a freshly registered user: the first twitter upload
appends the single entry. -/
theorem upload_upsert_semantics_witness :
    (uploadHandler ⟨0, "e", persistPassword "pw", "n", [], [], 0⟩
      ⟨[], some "twitter", some "a"⟩ 1).1.socialHandles =
      [⟨"twitter", "a", 1⟩] := by
  have h := (upload_upsert_semantics ⟨0, "e", persistPassword "pw", "n", [], [], 0⟩
    [] "twitter" "a" 1 (by decide) (by decide)).1
  simpa using h (by simp)

/-- C3: Every reachable User state satisfies the invariant that
socialHandles has no two entries with the same platform: registration
creates it empty, and the upload upsert, social-handle deletion and image
deletion each preserve the property. -/
theorem reachable_noDupPlatforms (u : User) (hr : Reachable u) :
    NoDupPlatforms u.socialHandles := by
  induction hr with
  | registered id email password name now => simp [NoDupPlatforms]
  | upload v req now _ ih =>
    rcases upload_socialHandles v req now with hEq | ⟨p, h, _, _, hEq⟩
    · rw [hEq]; exact ih
    · rw [hEq]; exact upsert_noDup p h now v.socialHandles ih
  | deleteHandle v platform _ ih => exact filter_noDup _ v.socialHandles ih
  | deleteImage v imagePath _ ih => exact ih

/-- Witness for C3 at a freshly registered user. -/
theorem reachable_noDupPlatforms_witness :
    NoDupPlatforms (User.mk 0 "e" (persistPassword "pw") "n" [] [] 0).socialHandles :=
  reachable_noDupPlatforms _ (Reachable.registered 0 "e" "pw" "n" 0)

theorem mem_deleteFiles (imgs : List Image) :
    ∀ (files : List String) (x : String),
      x ∈ deleteFiles files imgs ↔
        x ∈ files ∧ ∀ img ∈ imgs, x ≠ resolvePath img.url := by
  induction imgs with
  | nil => intro files x; simp [deleteFiles]
  | cons img rest ih =>
    intro files x
    rw [deleteFiles, ih]
    simp only [List.mem_filter, bne_iff_ne, List.forall_mem_cons]
    tauto

/-- C4: deleteUser for an absent id returns 404 and changes neither the
database nor the filesystem; for an existing user it returns 200, removes
that user document, leaves the Admin collection alone, and removes from
storage the file referenced by every entry of the user's images (a file
already missing is skipped silently, leaving the rest of the filesystem
intact). -/
theorem deleteUser_spec (db : DB) (id : Nat) :
    (db.users.find? (fun u => u.id == id) = none →
      deleteUserHandler db id = (db, ⟨404, RespBody.err "User not found"⟩)) ∧
    (∀ u, db.users.find? (fun v => v.id == id) = some u →
      (deleteUserHandler db id).2 = ⟨200, RespBody.msg "User deleted successfully"⟩ ∧
      (deleteUserHandler db id).1.users = db.users.filter (fun v => v.id != id) ∧
      (deleteUserHandler db id).1.admins = db.admins ∧
      (∀ img ∈ u.images, resolvePath img.url ∉ (deleteUserHandler db id).1.files) ∧
      (∀ x, x ∈ (deleteUserHandler db id).1.files ↔
        x ∈ db.files ∧ ∀ img ∈ u.images, x ≠ resolvePath img.url)) := by
  constructor
  · intro hnone
    simp [deleteUserHandler, hnone]
  · intro u hu
    simp only [deleteUserHandler, hu]
    refine ⟨trivial, trivial, trivial, ?_, ?_⟩
    · intro img himg hmem
      rw [mem_deleteFiles] at hmem
      exact hmem.2 img himg rfl
    · intro x
      exact mem_deleteFiles u.images db.files x

/-- Witness for C4: deleting the only user removes its image file and
reports success. -/
theorem deleteUser_spec_witness :
    (deleteUserHandler
      (DB.mk [User.mk 1 "e" (persistPassword "pw") "n" [] [Image.mk "/uploads/a.jpg" 0] 0]
        [] ["/app/uploads/a.jpg"]) 1).2 =
      ⟨200, RespBody.msg "User deleted successfully"⟩ :=
  ((deleteUser_spec
      (DB.mk [User.mk 1 "e" (persistPassword "pw") "n" [] [Image.mk "/uploads/a.jpg" 0] 0]
        [] ["/app/uploads/a.jpg"]) 1).2
    (User.mk 1 "e" (persistPassword "pw") "n" [] [Image.mk "/uploads/a.jpg" 0] 0)
    (by rfl)).1

/-- C5: For both login handlers, the response when no account with the
supplied identifier exists is exactly the response when the account exists
but the password comparison fails: the same 401 status with the same
Invalid credentials body, so the two failure causes are indistinguishable
to the caller. -/
theorem login_failure_indistinguishable (db : DB)
    (email username password : String) :
    (db.users.find? (fun u => u.email == email) = none →
      userLogin db email password = invalidCredentials) ∧
    (∀ u, db.users.find? (fun v => v.email == email) = some u →
      bcrypt_compare password u.password = false →
      userLogin db email password = invalidCredentials) ∧
    (db.admins.find? (fun a => a.username == username) = none →
      adminLogin db username password = invalidCredentials) ∧
    (∀ a, db.admins.find? (fun b => b.username == username) = some a →
      bcrypt_compare password a.password = false →
      adminLogin db username password = invalidCredentials) := by
  refine ⟨?_, ?_, ?_, ?_⟩
  · intro hnone; simp [userLogin, hnone]
  · intro u hu hcmp; simp [userLogin, hu, hcmp]
  · intro hnone; simp [adminLogin, hnone]
  · intro a ha hcmp; simp [adminLogin, ha, hcmp]

/-- Witness for C5: unknown identifier and wrong password produce the same
response, for users and for admins. -/
theorem login_failure_indistinguishable_witness :
    userLogin (DB.mk [User.mk 1 "a@b" (persistPassword "pw") "n" [] [] 0] [] [])
      "missing" "pw" = invalidCredentials ∧
    userLogin (DB.mk [User.mk 1 "a@b" (persistPassword "pw") "n" [] [] 0] [] [])
      "a@b" "wrong" = invalidCredentials ∧
    adminLogin (DB.mk [] [Admin.mk 2 defaultAdminUsername (bcrypt_hash 10 "admin")] [])
      "nobody" "admin" = invalidCredentials ∧
    adminLogin (DB.mk [] [Admin.mk 2 defaultAdminUsername (bcrypt_hash 10 "admin")] [])
      defaultAdminUsername "wrong" = invalidCredentials := by
  refine ⟨?_, ?_, ?_, ?_⟩
  · exact (login_failure_indistinguishable
      (DB.mk [User.mk 1 "a@b" (persistPassword "pw") "n" [] [] 0] [] [])
      "missing" "" "pw").1 (by decide)
  · exact (login_failure_indistinguishable
      (DB.mk [User.mk 1 "a@b" (persistPassword "pw") "n" [] [] 0] [] [])
      "a@b" "" "wrong").2.1
      (User.mk 1 "a@b" (persistPassword "pw") "n" [] [] 0) (by decide) (by decide)
  · exact (login_failure_indistinguishable
      (DB.mk [] [Admin.mk 2 defaultAdminUsername (bcrypt_hash 10 "admin")] [])
      "" "nobody" "admin").2.2.1 (by decide)
  · exact (login_failure_indistinguishable
      (DB.mk [] [Admin.mk 2 defaultAdminUsername (bcrypt_hash 10 "admin")] [])
      "" defaultAdminUsername "wrong").2.2.2
      (Admin.mk 2 defaultAdminUsername (bcrypt_hash 10 "admin")) (by decide) (by decide)

/-- C6: Successful registration persists a bcrypt hash, never the
plaintext: the stored password of the new user differs from the submitted
plaintext, the bcrypt comparison of that plaintext against the stored
value succeeds, and a subsequent login with the same email and plaintext
returns a token for the new user. -/
theorem register_hashes_password (db : DB) (email password name : String)
    (newId now : Nat)
    (hnone : db.users.find? (fun u => u.email == email) = none) :
    ∃ u : User,
      (registerHandler db email password name newId now).1.users =
        db.users ++ [u] ∧
      u.password ≠ StoredPassword.plaintext password ∧
      bcrypt_compare password u.password = true ∧
      userLogin (registerHandler db email password name newId now).1
        email password = ⟨200, RespBody.token newId⟩ := by
  refine ⟨⟨newId, email, persistPassword password, name, [], [], now⟩, ?_, ?_, ?_, ?_⟩
  · simp [registerHandler, hnone]
  · simp [persistPassword, bcrypt_hash]
  · simp [persistPassword, bcrypt_hash, bcrypt_compare]
  · have husers : (registerHandler db email password name newId now).1.users =
        db.users ++ [⟨newId, email, persistPassword password, name, [], [], now⟩] := by
      simp [registerHandler, hnone]
    simp [userLogin, husers, List.find?_append, hnone, persistPassword,
      bcrypt_hash, bcrypt_compare]

/-- Witness for C6 on the empty database. -/
theorem register_hashes_password_witness :
    ∃ u : User,
      (registerHandler (DB.mk [] [] []) "a@b" "pw" "n" 1 0).1.users = [] ++ [u] ∧
      u.password ≠ StoredPassword.plaintext "pw" ∧
      bcrypt_compare "pw" u.password = true ∧
      userLogin (registerHandler (DB.mk [] [] []) "a@b" "pw" "n" 1 0).1
        "a@b" "pw" = ⟨200, RespBody.token 1⟩ :=
  register_hashes_password (DB.mk [] [] []) "a@b" "pw" "n" 1 0 (by rfl)

/-- C7: Registering an email that already belongs to an existing user
fails with 400 and leaves the database (users, admins, files) unchanged,
regardless of the supplied password and name. -/
theorem duplicate_email_registration_fails (db : DB)
    (email password name : String) (newId now : Nat) (u : User)
    (hu : u ∈ db.users) (he : u.email = email) :
    registerHandler db email password name newId now =
      (db, ⟨400, RespBody.err "Email already registered"⟩) := by
  have hsome : (db.users.find? (fun w => w.email == email)).isSome := by
    rw [List.find?_isSome]
    exact ⟨u, hu, by simp [he]⟩
  obtain ⟨v, hv⟩ := Option.isSome_iff_exists.mp hsome
  simp [registerHandler, hv]

/-- Witness for C7: re-registering an existing email is rejected. -/
theorem duplicate_email_registration_fails_witness :
    registerHandler
      (DB.mk [User.mk 1 "a@b" (persistPassword "pw") "n" [] [] 0] [] [])
      "a@b" "other" "m" 2 5 =
      (DB.mk [User.mk 1 "a@b" (persistPassword "pw") "n" [] [] 0] [] [],
       ⟨400, RespBody.err "Email already registered"⟩) :=
  duplicate_email_registration_fails
    (DB.mk [User.mk 1 "a@b" (persistPassword "pw") "n" [] [] 0] [] [])
    "a@b" "other" "m" 2 5
    (User.mk 1 "a@b" (persistPassword "pw") "n" [] [] 0)
    (by simp) (by rfl)

/-- C8: The admin gate rejects with 401 any token whose embedded id
matches no Admin record, and the user gate rejects any token whose id
matches no User record; consequently a User's token whose id is not an
Admin id never passes the admin gate, and an Admin's token whose id is not
a User id never passes the user gate. -/
theorem auth_gates_scope_tokens (db : DB) (t : Token) :
    ((∀ a ∈ db.admins, a.id ≠ t.id) →
      adminAuthGate db t = AuthOutcome.reject authRejection) ∧
    ((∀ u ∈ db.users, u.id ≠ t.id) →
      userAuthGate db t = AuthOutcome.reject authRejection) ∧
    (∀ u ∈ db.users, t.id = u.id → (∀ a ∈ db.admins, a.id ≠ u.id) →
      adminAuthGate db t = AuthOutcome.reject authRejection) ∧
    (∀ a ∈ db.admins, t.id = a.id → (∀ u ∈ db.users, u.id ≠ a.id) →
      userAuthGate db t = AuthOutcome.reject authRejection) := by
  have hadm : (∀ a ∈ db.admins, a.id ≠ t.id) →
      db.admins.find? (fun a => a.id == t.id) = none := fun hne =>
    List.find?_eq_none.mpr (fun a ha => by simp [hne a ha])
  have husr : (∀ u ∈ db.users, u.id ≠ t.id) →
      db.users.find? (fun u => u.id == t.id) = none := fun hne =>
    List.find?_eq_none.mpr (fun u hu => by simp [hne u hu])
  refine ⟨?_, ?_, ?_, ?_⟩
  · intro hne; simp [adminAuthGate, hadm hne]
  · intro hne; simp [userAuthGate, husr hne]
  · intro u _ htu hne
    have : ∀ a ∈ db.admins, a.id ≠ t.id := fun a ha => htu ▸ hne a ha
    simp [adminAuthGate, hadm this]
  · intro a _ hta hne
    have : ∀ u ∈ db.users, u.id ≠ t.id := fun u hu => hta ▸ hne u hu
    simp [userAuthGate, husr this]

/-- Witness for C8: with one user (id 1) and one admin (id 2), the user's
token fails the admin gate and the admin's token fails the user gate. -/
theorem auth_gates_scope_tokens_witness :
    adminAuthGate
      (DB.mk [User.mk 1 "a@b" (persistPassword "pw") "n" [] [] 0]
        [Admin.mk 2 defaultAdminUsername (bcrypt_hash 10 "admin")] []) ⟨1⟩ =
      AuthOutcome.reject authRejection ∧
    userAuthGate
      (DB.mk [User.mk 1 "a@b" (persistPassword "pw") "n" [] [] 0]
        [Admin.mk 2 defaultAdminUsername (bcrypt_hash 10 "admin")] []) ⟨2⟩ =
      AuthOutcome.reject authRejection := by
  constructor
  · exact (auth_gates_scope_tokens
      (DB.mk [User.mk 1 "a@b" (persistPassword "pw") "n" [] [] 0]
        [Admin.mk 2 defaultAdminUsername (bcrypt_hash 10 "admin")] []) ⟨1⟩).1
      (by decide)
  · exact (auth_gates_scope_tokens
      (DB.mk [User.mk 1 "a@b" (persistPassword "pw") "n" [] [] 0]
        [Admin.mk 2 defaultAdminUsername (bcrypt_hash 10 "admin")] []) ⟨2⟩).2.1
      (by decide)

/-- C9: Deleting a social handle for a platform the user does not have is
a no-op on the whole database state and still returns 200; the hypothesis
that user ids are pairwise distinct reflects the uniqueness of MongoDB
document ids. -/
theorem deleteSocialHandle_absent_noop (db : DB) (id : Nat) (platform : String)
    (u : User) (hu : db.users.find? (fun v => v.id == id) = some u)
    (hids : (db.users.map (fun v => v.id)).Nodup)
    (habs : ∀ e ∈ u.socialHandles, e.platform ≠ platform) :
    deleteSocialHandleHandler db id platform =
      (db, ⟨200, RespBody.msg "Social handle deleted successfully"⟩) := by
  have hufix : removeSocialHandle u platform = u := by
    have hfe : u.socialHandles.filter (fun h => h.platform != platform) =
        u.socialHandles :=
      List.filter_eq_self.mpr (fun e he => by simp [bne_iff_ne, habs e he])
    simp [removeSocialHandle, hfe]
  have humem : u ∈ db.users := List.mem_of_find?_eq_some hu
  have huid : u.id = id := by
    have := List.find?_some hu
    simpa using this
  have hupdate : updateUserById db.users id u = db.users := by
    unfold updateUserById
    have hcongr : ∀ v ∈ db.users, (if v.id == id then u else v) = v := by
      intro v hv
      by_cases hvid : (v.id == id) = true
      · rw [if_pos hvid]
        have hvid' : v.id = id := by simpa using hvid
        exact List.inj_on_of_nodup_map hids humem hv (by rw [huid, hvid'])
      · rw [if_neg (by simpa using hvid)]
    calc db.users.map (fun v => if v.id == id then u else v)
        = db.users.map (fun v => v) := List.map_congr_left hcongr
      _ = db.users := List.map_id' db.users
  simp [deleteSocialHandleHandler, hu, hufix, hupdate]

/-- Witness for C9: deleting an absent platform from the only user leaves
the database unchanged and succeeds. -/
theorem deleteSocialHandle_absent_noop_witness :
    deleteSocialHandleHandler
      (DB.mk [User.mk 1 "a@b" (persistPassword "pw") "n"
        [SocialHandle.mk "twitter" "a" 0] [] 0] [] []) 1 "instagram" =
      (DB.mk [User.mk 1 "a@b" (persistPassword "pw") "n"
        [SocialHandle.mk "twitter" "a" 0] [] 0] [] [],
       ⟨200, RespBody.msg "Social handle deleted successfully"⟩) :=
  deleteSocialHandle_absent_noop
    (DB.mk [User.mk 1 "a@b" (persistPassword "pw") "n"
      [SocialHandle.mk "twitter" "a" 0] [] 0] [] []) 1 "instagram"
    (User.mk 1 "a@b" (persistPassword "pw") "n"
      [SocialHandle.mk "twitter" "a" 0] [] 0)
    (by rfl) (by simp) (by decide)

/-- C10: The upload success response carries the full persisted User
document (its password field is exactly the stored password, which upload
leaves unchanged); listUsers returns exactly the stored User documents (a
permutation of the collection, so each returned document is one stored in
the database, password field included); registration's success response,
by contrast, carries only a message and no user fields. -/
theorem responses_expose_password (user : User) (req : UploadRequest)
    (now : Nat) (db : DB) (email password name : String) (newId tnow : Nat) :
    ((uploadHandler user req now).2 =
      ⟨201, RespBody.user (uploadHandler user req now).1⟩ ∧
     (uploadHandler user req now).1.password = user.password) ∧
    (∃ l, listUsersHandler db = ⟨200, RespBody.users l⟩ ∧
      l.Perm db.users ∧ ∀ v ∈ l, v ∈ db.users) ∧
    (db.users.find? (fun u => u.email == email) = none →
      (registerHandler db email password name newId tnow).2 =
        ⟨201, RespBody.msg "Registration successful"⟩) := by
  refine ⟨⟨rfl, ?_⟩, ⟨db.users.insertionSort newestFirst, rfl, ?_, ?_⟩, ?_⟩
  · rcases req with ⟨files, pOpt, hOpt⟩
    cases pOpt with
    | none => simp [uploadHandler]
    | some p =>
      cases hOpt with
      | none => simp [uploadHandler]
      | some h =>
        by_cases hc : (p != "" && h != "") = true
        · simp [uploadHandler, hc]
        · simp [uploadHandler, hc]
  · exact List.perm_insertionSort newestFirst db.users
  · intro v hv
    exact (List.Perm.mem_iff (List.perm_insertionSort newestFirst db.users)).mp hv
  · intro hnone
    simp [registerHandler, hnone]

/-- Witness for C10 on a one-user database. -/
theorem responses_expose_password_witness :
    (registerHandler
      (DB.mk [User.mk 1 "a@b" (persistPassword "pw") "n" [] [] 0] [] [])
      "c@d" "pw2" "m" 2 5).2 =
      ⟨201, RespBody.msg "Registration successful"⟩ :=
  (responses_expose_password
    (User.mk 1 "a@b" (persistPassword "pw") "n" [] [] 0) ⟨[], none, none⟩ 0
    (DB.mk [User.mk 1 "a@b" (persistPassword "pw") "n" [] [] 0] [] [])
    "c@d" "pw2" "m" 2 5).2.2 (by decide)

end SocialBackend
